import Mathlib

/-!
Shallow embedding of x509gen.py (cert_tools): a small PKI provisioning
script that generates RSA key pairs and builds a four-certificate chain
(root CA, intermediate signing CA, TLS server leaf, self-signed client
leaf), persisting each artifact to a fixed file name and reusing any
file that already exists.

Modelling conventions:
- RSA key pairs are modelled as abstract records carrying a fresh
  identifier plus the generation parameters (modulus size, public
  exponent).  A private key and the public key derived from it are the
  same record, mirroring private_key.public_key() in the source.
- PEM-encoded byte strings are modelled as an inductive: a serialized
  key or certificate remembers exactly the value and the encoding
  parameters used to serialize it, and a separate constructor stands
  for arbitrary bytes that are not a valid serialization (corrupt or
  empty files).  The load functions of the cryptography library
  succeed exactly on the matching serialized forms.
- Time and randomness (datetime.datetime.now and
  x509.random_serial_number / rsa.generate_private_key) are supplied by
  a World value holding two oracle streams and their cursors.
- The file system is a Store with one Option Bytes field per file name
  the script touches; main threads the store, records every write, and
  stops at the first uncaught parse failure like the Python script
  (an uncaught exception aborts the process).
-/

/-- Name attribute kinds used by the script (subset of x509.NameOID). -/
inductive NameAttr where
  | commonName (value : String)
  | organizationalUnitName (value : String)
  | serialNumberAttr (value : String)
deriving DecidableEq

/-- A distinguished name is the ordered list of its attributes. -/
def DistName := List NameAttr
deriving instance DecidableEq for DistName

/-- Abstract RSA key pair: identifier plus generation parameters.
The same record serves as the private key and as its derived public
key, mirroring private_key.public_key() in the source. -/
structure RSAKey where
  key_id : Nat
  key_size : Nat
  public_exponent : Nat
deriving DecidableEq

/-- Serialization encodings (cryptography.hazmat Encoding). -/
inductive Encoding where
  | PEM
  | DER
deriving DecidableEq

/-- Private-key serialization formats (PrivateFormat). -/
inductive PrivateFormat where
  | PKCS8
  | TraditionalOpenSSL
deriving DecidableEq

/-- Public-key serialization formats (PublicFormat). -/
inductive PublicFormat where
  | PKCS1
  | SubjectPublicKeyInfo
deriving DecidableEq

/-- Hash algorithms passed to builder.sign. -/
inductive HashAlg where
  | sha256
deriving DecidableEq

/-- KeyUsage extension value, field for field as in x509.KeyUsage. -/
structure KeyUsage where
  digital_signature : Bool
  content_commitment : Bool
  key_encipherment : Bool
  data_encipherment : Bool
  key_agreement : Bool
  key_cert_sign : Bool
  crl_sign : Bool
  encipher_only : Bool
  decipher_only : Bool
deriving DecidableEq

/-- BasicConstraints extension value. -/
structure BasicConstraints where
  ca : Bool
  path_length : Option Nat
deriving DecidableEq

/-- General names usable in a SubjectAlternativeName. -/
inductive GeneralName where
  | dnsName (value : String)
  | directoryName (value : DistName)
deriving DecidableEq

/-- Extended key usage purpose identifiers used by the script. -/
inductive EkuOid where
  | server_auth
  | client_auth
deriving DecidableEq

/-- The possible extension values attached by the script. -/
inductive ExtnValue where
  | basicConstraints (value : BasicConstraints)
  | keyUsage (value : KeyUsage)
  | subjectAlternativeName (value : List GeneralName)
  | extendedKeyUsage (value : List EkuOid)
  | subjectKeyIdentifier (key : RSAKey)
  | authorityKeyIdentifier (key : RSAKey)
deriving DecidableEq

/-- An attached extension: value plus criticality flag. -/
structure Extension where
  value : ExtnValue
  critical : Bool
deriving DecidableEq

/-- A signed certificate, with the fields the builder assembles.  The
signature is modelled by remembering the signing key and the hash
algorithm. -/
structure Certificate where
  subject : DistName
  issuer : DistName
  not_valid_before : Nat
  not_valid_after : Nat
  serial_number : Nat
  public_key : RSAKey
  extensions : List Extension
  signature_key : RSAKey
  signature_hash : HashAlg
deriving DecidableEq

/-- PEM byte strings as they appear in the store: a faithful
serialization of a key or certificate (remembering the encoding
parameters), or arbitrary other bytes (corrupt, empty, or foreign
content). -/
inductive Bytes where
  | privKeyBytes (key : RSAKey) (enc : Encoding) (fmt : PrivateFormat) (encrypted : Bool)
  | pubKeyBytes (key : RSAKey) (enc : Encoding) (fmt : PublicFormat)
  | certBytes (cert : Certificate) (enc : Encoding)
  | garbage (tag : Nat)
deriving DecidableEq

/-- load_pem_private_key with password None: succeeds exactly on a
PEM-encoded, unencrypted private key. -/
def load_pem_private_key : Bytes → Option RSAKey
  | .privKeyBytes k .PEM _ false => some k
  | _ => none

/-- load_pem_public_key: succeeds exactly on a PEM-encoded public key. -/
def load_pem_public_key : Bytes → Option RSAKey
  | .pubKeyBytes k .PEM _ => some k
  | _ => none

/-- load_pem_x509_certificate: succeeds exactly on a PEM certificate. -/
def load_pem_x509_certificate : Bytes → Option Certificate
  | .certBytes c .PEM => some c
  | _ => none

/-- Oracle for time and randomness: nowAt models successive
datetime.now readings, randAt models successive random draws
(key generation and x509.random_serial_number). -/
structure World where
  nowAt : Nat → Nat
  randAt : Nat → Nat
  clock : Nat
  rand : Nat

/-- Read the current time (seconds) and advance the clock cursor. -/
def World.now (w : World) : Nat × World :=
  (w.nowAt w.clock, { w with clock := w.clock + 1 })

/-- Draw a fresh random value and advance the randomness cursor. -/
def World.fresh (w : World) : Nat × World :=
  (w.randAt w.rand, { w with rand := w.rand + 1 })

-- Fixed distinguished names from the top of x509gen.py.

def ROOT_DN : DistName := [NameAttr.commonName "Mothership Root"]

def INTERMEDIATE_DN : DistName := [NameAttr.commonName "Mothership CA1"]

def SERVER_DN : DistName := [NameAttr.organizationalUnitName "Mothership Server"]

def CLIENT_DN : DistName := [NameAttr.organizationalUnitName "Random client"]

/-- CA_KEYUSAGE constant (cabforum 7.1.2.1.b, 7.1.2.2.e in the source). -/
def CA_KEYUSAGE : KeyUsage where
  digital_signature := true
  content_commitment := false
  key_encipherment := false
  data_encipherment := false
  key_agreement := false
  key_cert_sign := true
  crl_sign := true
  encipher_only := false
  decipher_only := false

/-- ENTITY_KEYUSAGE constant (cabforum 7.1.2.3 in the source). -/
def ENTITY_KEYUSAGE : KeyUsage where
  digital_signature := true
  content_commitment := false
  key_encipherment := true
  data_encipherment := false
  key_agreement := false
  key_cert_sign := false
  crl_sign := false
  encipher_only := false
  decipher_only := false

/-- SELFSIGNED_ENTITY_KEYUSAGE constant from the source. -/
def SELFSIGNED_ENTITY_KEYUSAGE : KeyUsage where
  digital_signature := true
  content_commitment := false
  key_encipherment := true
  data_encipherment := false
  key_agreement := false
  key_cert_sign := true
  crl_sign := false
  encipher_only := false
  decipher_only := false

def SERVER_EXTKEYUSAGE : List EkuOid := [EkuOid.server_auth]

def CLIENT_EXTKEYUSAGE : List EkuOid := [EkuOid.client_auth]

/-- create_rsa_key_pair: RSA-2048 with exponent 65537, serialized as
unencrypted PKCS8 PEM (private) and PKCS1 PEM (public). -/
def create_rsa_key_pair (w : World) : Bytes × Bytes × World :=
  let (kid, w) := w.fresh
  let private_key : RSAKey := { key_id := kid, key_size := 2048, public_exponent := 65537 }
  let public_key := private_key
  let priv_bytes := Bytes.privKeyBytes private_key .PEM .PKCS8 false
  let pub_bytes := Bytes.pubKeyBytes public_key .PEM .PKCS1
  (priv_bytes, pub_bytes, w)

/-- The certificate builder: optional fields set one by one, plus the
ordered list of added extensions. -/
structure CertificateBuilder where
  subject_name : Option DistName := none
  issuer_name : Option DistName := none
  not_valid_before : Option Nat := none
  not_valid_after : Option Nat := none
  serial_number : Option Nat := none
  public_key : Option RSAKey := none
  extensions : List Extension := []

/-- builder.add_extension appends the extension with its criticality. -/
def CertificateBuilder.add_extension (b : CertificateBuilder) (v : ExtnValue)
    (critical : Bool) : CertificateBuilder :=
  { b with extensions := b.extensions ++ [{ value := v, critical := critical }] }

/-- builder.sign: requires every builder field to have been set, and
produces the certificate signed by the given private key. -/
def CertificateBuilder.sign (b : CertificateBuilder) (private_key : RSAKey)
    (algorithm : HashAlg) : Option Certificate :=
  match b.subject_name, b.issuer_name, b.not_valid_before, b.not_valid_after,
      b.serial_number, b.public_key with
  | some s, some i, some nb, some na, some sn, some pk =>
      some { subject := s, issuer := i, not_valid_before := nb, not_valid_after := na,
             serial_number := sn, public_key := pk, extensions := b.extensions,
             signature_key := private_key, signature_hash := algorithm }
  | _, _, _, _, _, _ => none

/-- AuthorityKeyIdentifier.from_issuer_public_key. -/
def AuthorityKeyIdentifier.from_issuer_public_key (k : RSAKey) : ExtnValue :=
  ExtnValue.authorityKeyIdentifier k

/-- SubjectKeyIdentifier.from_public_key. -/
def SubjectKeyIdentifier.from_public_key (k : RSAKey) : ExtnValue :=
  ExtnValue.subjectKeyIdentifier k

/-- The shared builder prelude: subject and issuer names, validity
window from now to now plus the requested days (timedelta(days, 0, 0)
is days times 86400 seconds), a random serial number, and the subject
public key. -/
def _cert_helper (public_key : RSAKey) (subject_dn issuer_dn : DistName)
    (days : Nat) (w : World) : CertificateBuilder × World :=
  let builder : CertificateBuilder := {}
  let builder := { builder with subject_name := some subject_dn }
  let builder := { builder with issuer_name := some issuer_dn }
  let (validity_start, w) := w.now
  let validity_end := validity_start + days * 86400
  let builder := { builder with not_valid_before := some validity_start }
  let builder := { builder with not_valid_after := some validity_end }
  let (serial, w) := w.fresh
  let builder := { builder with serial_number := some serial }
  let builder := { builder with public_key := some public_key }
  (builder, w)

/-- create_root_cert: self-signed root CA from its own PEM private key. -/
def create_root_cert (pem_private_key : Bytes) (days : Nat) (w : World) :
    Option (Bytes × World) :=
  match load_pem_private_key pem_private_key with
  | none => none
  | some private_key =>
    let public_key := private_key
    let (builder, w) := _cert_helper public_key ROOT_DN ROOT_DN days w
    let builder := builder.add_extension
      (ExtnValue.basicConstraints { ca := true, path_length := none }) true
    let builder := builder.add_extension (ExtnValue.keyUsage CA_KEYUSAGE) true
    let builder := builder.add_extension
      (AuthorityKeyIdentifier.from_issuer_public_key public_key) false
    let builder := builder.add_extension
      (SubjectKeyIdentifier.from_public_key public_key) false
    match builder.sign private_key .sha256 with
    | none => none
    | some certificate => some (Bytes.certBytes certificate .PEM, w)

/-- create_signing_cert: intermediate CA, issued under the given issuer
certificate and signed with the given (issuer) private key. -/
def create_signing_cert (pem_issuer_cert pem_private_key pem_public_key : Bytes)
    (days : Nat) (w : World) : Option (Bytes × World) :=
  match load_pem_x509_certificate pem_issuer_cert with
  | none => none
  | some issuer_cert =>
    match load_pem_private_key pem_private_key with
    | none => none
    | some private_key =>
      match load_pem_public_key pem_public_key with
      | none => none
      | some public_key =>
        let (builder, w) := _cert_helper public_key INTERMEDIATE_DN
          issuer_cert.subject days w
        let builder := builder.add_extension
          (ExtnValue.basicConstraints { ca := true, path_length := some 0 }) true
        let builder := builder.add_extension (ExtnValue.keyUsage CA_KEYUSAGE) true
        let builder := builder.add_extension
          (AuthorityKeyIdentifier.from_issuer_public_key issuer_cert.public_key) false
        let builder := builder.add_extension
          (SubjectKeyIdentifier.from_public_key public_key) false
        match builder.sign private_key .sha256 with
        | none => none
        | some certificate => some (Bytes.certBytes certificate .PEM, w)

/-- create_server_cert: TLS server leaf, issued under the given issuer
certificate and signed with the given (issuer) private key. -/
def create_server_cert (pem_issuer_cert pem_private_key pem_public_key : Bytes)
    (days : Nat) (w : World) : Option (Bytes × World) :=
  match load_pem_x509_certificate pem_issuer_cert with
  | none => none
  | some issuer_cert =>
    match load_pem_private_key pem_private_key with
    | none => none
    | some private_key =>
      match load_pem_public_key pem_public_key with
      | none => none
      | some public_key =>
        let (builder, w) := _cert_helper public_key SERVER_DN
          issuer_cert.subject days w
        let builder := builder.add_extension
          (ExtnValue.subjectAlternativeName [GeneralName.dnsName "mothership_server"]) true
        let builder := builder.add_extension
          (ExtnValue.basicConstraints { ca := false, path_length := none }) true
        let builder := builder.add_extension (ExtnValue.keyUsage ENTITY_KEYUSAGE) true
        let builder := builder.add_extension
          (ExtnValue.extendedKeyUsage SERVER_EXTKEYUSAGE) true
        let builder := builder.add_extension
          (AuthorityKeyIdentifier.from_issuer_public_key issuer_cert.public_key) false
        let builder := builder.add_extension
          (SubjectKeyIdentifier.from_public_key public_key) false
        match builder.sign private_key .sha256 with
        | none => none
        | some certificate => some (Bytes.certBytes certificate .PEM, w)

/-- create_selfsigned_client_cert: self-signed client leaf from its own
PEM private key. -/
def create_selfsigned_client_cert (pem_private_key : Bytes) (days : Nat)
    (w : World) : Option (Bytes × World) :=
  match load_pem_private_key pem_private_key with
  | none => none
  | some private_key =>
    let public_key := private_key
    let (builder, w) := _cert_helper public_key CLIENT_DN CLIENT_DN days w
    let device_name : DistName := [NameAttr.serialNumberAttr "device_0001"]
    let builder := builder.add_extension
      (ExtnValue.subjectAlternativeName [GeneralName.directoryName device_name]) true
    let builder := builder.add_extension
      (ExtnValue.basicConstraints { ca := false, path_length := none }) true
    let builder := builder.add_extension
      (ExtnValue.keyUsage SELFSIGNED_ENTITY_KEYUSAGE) true
    let builder := builder.add_extension
      (ExtnValue.extendedKeyUsage CLIENT_EXTKEYUSAGE) true
    let builder := builder.add_extension
      (AuthorityKeyIdentifier.from_issuer_public_key public_key) false
    let builder := builder.add_extension
      (SubjectKeyIdentifier.from_public_key public_key) false
    match builder.sign private_key .sha256 with
    | none => none
    | some certificate => some (Bytes.certBytes certificate .PEM, w)

/-- The twelve file names main reads and writes. -/
inductive FileName where
  | root_ca_priv_key
  | root_ca_pub_key
  | root_cert
  | signing_ca_priv_key
  | signing_ca_pub_key
  | signing_cert
  | server_priv_key
  | server_pub_key
  | server_cert
  | client_priv_key
  | client_pub_key
  | client_cert
deriving DecidableEq

/-- The artifact store: one optional byte string per file name. -/
structure Store where
  root_ca_priv_key : Option Bytes
  root_ca_pub_key : Option Bytes
  root_cert : Option Bytes
  signing_ca_priv_key : Option Bytes
  signing_ca_pub_key : Option Bytes
  signing_cert : Option Bytes
  server_priv_key : Option Bytes
  server_pub_key : Option Bytes
  server_cert : Option Bytes
  client_priv_key : Option Bytes
  client_pub_key : Option Bytes
  client_cert : Option Bytes
deriving DecidableEq

/-- Read a file from the store; none models FileNotFoundError. -/
def slotGet (st : Store) : FileName → Option Bytes
  | .root_ca_priv_key => st.root_ca_priv_key
  | .root_ca_pub_key => st.root_ca_pub_key
  | .root_cert => st.root_cert
  | .signing_ca_priv_key => st.signing_ca_priv_key
  | .signing_ca_pub_key => st.signing_ca_pub_key
  | .signing_cert => st.signing_cert
  | .server_priv_key => st.server_priv_key
  | .server_pub_key => st.server_pub_key
  | .server_cert => st.server_cert
  | .client_priv_key => st.client_priv_key
  | .client_pub_key => st.client_pub_key
  | .client_cert => st.client_cert

/-- Write a file into the store. -/
def setFile (st : Store) : FileName → Bytes → Store
  | .root_ca_priv_key, b => { st with root_ca_priv_key := some b }
  | .root_ca_pub_key, b => { st with root_ca_pub_key := some b }
  | .root_cert, b => { st with root_cert := some b }
  | .signing_ca_priv_key, b => { st with signing_ca_priv_key := some b }
  | .signing_ca_pub_key, b => { st with signing_ca_pub_key := some b }
  | .signing_cert, b => { st with signing_cert := some b }
  | .server_priv_key, b => { st with server_priv_key := some b }
  | .server_pub_key, b => { st with server_pub_key := some b }
  | .server_cert, b => { st with server_cert := some b }
  | .client_priv_key, b => { st with client_priv_key := some b }
  | .client_pub_key, b => { st with client_pub_key := some b }
  | .client_cert, b => { st with client_cert := some b }

/-- Errors that abort the run: an uncaught parse or load failure while
creating the named certificate. -/
inductive RunError where
  | parse_failure (file : FileName)
deriving DecidableEq

/-- Run state threaded through main: the store plus the log of writes
performed so far, in order. -/
structure RunState where
  store : Store
  writes : List (FileName × Bytes)
deriving DecidableEq

/-- Persist a byte string and log the write. -/
def writeFile (s : RunState) (f : FileName) (b : Bytes) : RunState :=
  { store := setFile s.store f b, writes := s.writes ++ [(f, b)] }

/-- Outcome of a certificate step: the value read or created, or the
abort state after an uncaught exception. -/
inductive Res (α : Type) where
  | ok (v : α) (s : RunState) (w : World)
  | err (s : RunState) (e : RunError)

/-- The run state carried by a step outcome. -/
def Res.state {α : Type} : Res α → RunState
  | .ok _ s _ => s
  | .err s _ => s

/-- Result of a whole provisioning run: final store, the ordered list
of writes, and the error that aborted the run, if any. -/
structure MainResult where
  store : Store
  writes : List (FileName × Bytes)
  error : Option RunError
deriving DecidableEq

/-- Root key block of main: reuse both root key files if readable,
otherwise generate a fresh pair and persist both files. -/
def step_root_keys (w : World) (s : RunState) : Bytes × Bytes × RunState × World :=
  match s.store.root_ca_priv_key, s.store.root_ca_pub_key with
  | some priv, some pub => (priv, pub, s, w)
  | none, _ =>
      let (priv, pub, w) := create_rsa_key_pair w
      (priv, pub, writeFile (writeFile s .root_ca_priv_key priv) .root_ca_pub_key pub, w)
  | some _, none =>
      let (priv, pub, w) := create_rsa_key_pair w
      (priv, pub, writeFile (writeFile s .root_ca_priv_key priv) .root_ca_pub_key pub, w)

/-- Root certificate block of main. -/
def step_root_cert (root_ca_priv_key : Bytes) (w : World) (s : RunState) : Res Bytes :=
  match s.store.root_cert with
  | some c => .ok c s w
  | none =>
    match create_root_cert root_ca_priv_key 365 w with
    | none => .err s (.parse_failure .root_cert)
    | some (cert, w) => .ok cert (writeFile s .root_cert cert) w

/-- Signing CA key block of main. -/
def step_signing_keys (w : World) (s : RunState) : Bytes × Bytes × RunState × World :=
  match s.store.signing_ca_priv_key, s.store.signing_ca_pub_key with
  | some priv, some pub => (priv, pub, s, w)
  | none, _ =>
      let (priv, pub, w) := create_rsa_key_pair w
      (priv, pub, writeFile (writeFile s .signing_ca_priv_key priv) .signing_ca_pub_key pub, w)
  | some _, none =>
      let (priv, pub, w) := create_rsa_key_pair w
      (priv, pub, writeFile (writeFile s .signing_ca_priv_key priv) .signing_ca_pub_key pub, w)

/-- Signing certificate block of main. -/
def step_signing_cert (root_cert root_ca_priv_key signing_ca_pub_key : Bytes)
    (w : World) (s : RunState) : Res Bytes :=
  match s.store.signing_cert with
  | some c => .ok c s w
  | none =>
    match create_signing_cert root_cert root_ca_priv_key signing_ca_pub_key 14 w with
    | none => .err s (.parse_failure .signing_cert)
    | some (cert, w) => .ok cert (writeFile s .signing_cert cert) w

/-- Server key block of main. -/
def step_server_keys (w : World) (s : RunState) : Bytes × Bytes × RunState × World :=
  match s.store.server_priv_key, s.store.server_pub_key with
  | some priv, some pub => (priv, pub, s, w)
  | none, _ =>
      let (priv, pub, w) := create_rsa_key_pair w
      (priv, pub, writeFile (writeFile s .server_priv_key priv) .server_pub_key pub, w)
  | some _, none =>
      let (priv, pub, w) := create_rsa_key_pair w
      (priv, pub, writeFile (writeFile s .server_priv_key priv) .server_pub_key pub, w)

/-- Server certificate block of main. -/
def step_server_cert (signing_cert signing_ca_priv_key server_pub_key : Bytes)
    (w : World) (s : RunState) : Res Bytes :=
  match s.store.server_cert with
  | some c => .ok c s w
  | none =>
    match create_server_cert signing_cert signing_ca_priv_key server_pub_key 14 w with
    | none => .err s (.parse_failure .server_cert)
    | some (cert, w) => .ok cert (writeFile s .server_cert cert) w

/-- Client key block of main. -/
def step_client_keys (w : World) (s : RunState) : Bytes × Bytes × RunState × World :=
  match s.store.client_priv_key, s.store.client_pub_key with
  | some priv, some pub => (priv, pub, s, w)
  | none, _ =>
      let (priv, pub, w) := create_rsa_key_pair w
      (priv, pub, writeFile (writeFile s .client_priv_key priv) .client_pub_key pub, w)
  | some _, none =>
      let (priv, pub, w) := create_rsa_key_pair w
      (priv, pub, writeFile (writeFile s .client_priv_key priv) .client_pub_key pub, w)

/-- Client certificate block of main. -/
def step_client_cert (client_priv_key : Bytes) (w : World) (s : RunState) : Res Bytes :=
  match s.store.client_cert with
  | some c => .ok c s w
  | none =>
    match create_selfsigned_client_cert client_priv_key 14 w with
    | none => .err s (.parse_failure .client_cert)
    | some (cert, w) => .ok cert (writeFile s .client_cert cert) w

namespace x509gen

/-- The provisioning entry point: the eight create-or-reuse blocks of
main in source order, aborting at the first uncaught exception. -/
def main (st : Store) (w : World) : MainResult :=
  let s0 : RunState := { store := st, writes := [] }
  let (root_ca_priv_key, _root_ca_pub_key, s1, w1) := step_root_keys w s0
  match step_root_cert root_ca_priv_key w1 s1 with
  | .err s e => { store := s.store, writes := s.writes, error := some e }
  | .ok root_cert s2 w2 =>
    let (signing_ca_priv_key, signing_ca_pub_key, s3, w3) := step_signing_keys w2 s2
    match step_signing_cert root_cert root_ca_priv_key signing_ca_pub_key w3 s3 with
    | .err s e => { store := s.store, writes := s.writes, error := some e }
    | .ok signing_cert s4 w4 =>
      let (server_priv_key, server_pub_key, s5, w5) := step_server_keys w4 s4
      match step_server_cert signing_cert signing_ca_priv_key server_pub_key w5 s5 with
      | .err s e => { store := s.store, writes := s.writes, error := some e }
      | .ok _server_cert s6 w6 =>
        let (client_priv_key, _client_pub_key, s7, w7) := step_client_keys w6 s6
        match step_client_cert client_priv_key w7 s7 with
        | .err s e => { store := s.store, writes := s.writes, error := some e }
        | .ok _client_cert s8 _w8 => { store := s8.store, writes := s8.writes, error := none }

end x509gen

/-- The empty store: no artifact file exists yet. -/
def emptyStore : Store :=
  { root_ca_priv_key := none, root_ca_pub_key := none, root_cert := none,
    signing_ca_priv_key := none, signing_ca_pub_key := none, signing_cert := none,
    server_priv_key := none, server_pub_key := none, server_cert := none,
    client_priv_key := none, client_pub_key := none, client_cert := none }

/-- A concrete world for evaluating runs on concrete stores. -/
def exampleWorld : World :=
  { nowAt := fun n => 1000 + n, randAt := fun n => 100 + n, clock := 0, rand := 0 }

-- Extension accessors used to state the claims.

/-- The first BasicConstraints value among the extensions, if any. -/
def findBC : List Extension → Option BasicConstraints
  | [] => none
  | e :: es =>
    match e.value with
    | .basicConstraints v => some v
    | _ => findBC es

/-- The first KeyUsage value among the extensions, if any. -/
def findKU : List Extension → Option KeyUsage
  | [] => none
  | e :: es =>
    match e.value with
    | .keyUsage v => some v
    | _ => findKU es

/-- The first SubjectAlternativeName value among the extensions, if any. -/
def findSAN : List Extension → Option (List GeneralName)
  | [] => none
  | e :: es =>
    match e.value with
    | .subjectAlternativeName v => some v
    | _ => findSAN es

/-- The first ExtendedKeyUsage value among the extensions, if any. -/
def findEKU : List Extension → Option (List EkuOid)
  | [] => none
  | e :: es =>
    match e.value with
    | .extendedKeyUsage v => some v
    | _ => findEKU es

/-- The first SubjectKeyIdentifier key among the extensions, if any. -/
def findSKI : List Extension → Option RSAKey
  | [] => none
  | e :: es =>
    match e.value with
    | .subjectKeyIdentifier k => some k
    | _ => findSKI es

/-- The first AuthorityKeyIdentifier key among the extensions, if any. -/
def findAKI : List Extension → Option RSAKey
  | [] => none
  | e :: es =>
    match e.value with
    | .authorityKeyIdentifier k => some k
    | _ => findAKI es

/-- SubjectKeyIdentifier of a certificate. -/
def skiOf (c : Certificate) : Option RSAKey := findSKI c.extensions

/-- AuthorityKeyIdentifier of a certificate. -/
def akiOf (c : Certificate) : Option RSAKey := findAKI c.extensions

/-- BasicConstraints of a certificate. -/
def bcOf (c : Certificate) : Option BasicConstraints := findBC c.extensions

/-- KeyUsage of a certificate. -/
def kuOf (c : Certificate) : Option KeyUsage := findKU c.extensions

/-- Extension kinds, for criticality lookups. -/
inductive ExtnKind where
  | basic_constraints
  | key_usage
  | subject_alt_name
  | ext_key_usage
  | subject_key_id
  | authority_key_id
deriving DecidableEq

/-- The kind of an extension value. -/
def ExtnValue.kind : ExtnValue → ExtnKind
  | .basicConstraints _ => .basic_constraints
  | .keyUsage _ => .key_usage
  | .subjectAlternativeName _ => .subject_alt_name
  | .extendedKeyUsage _ => .ext_key_usage
  | .subjectKeyIdentifier _ => .subject_key_id
  | .authorityKeyIdentifier _ => .authority_key_id

/-- Criticality of the first extension of the given kind, if present. -/
def critOf (c : Certificate) (k : ExtnKind) : Option Bool :=
  (c.extensions.find? (fun e => e.value.kind == k)).map Extension.critical

/-! Theorems for the claims. -/

/-- C8: every call to create_rsa_key_pair produces an RSA key pair with
modulus size 2048 bits and public exponent 65537, returning the private
key as unencrypted PKCS8 PEM and the public key as PKCS1 PEM, both for
the same key pair. -/
theorem create_rsa_key_pair_spec :
    ∀ w : World, ∃ (k : RSAKey) (w2 : World),
      create_rsa_key_pair w
        = (Bytes.privKeyBytes k .PEM .PKCS8 false, Bytes.pubKeyBytes k .PEM .PKCS1, w2) ∧
      k.key_size = 2048 ∧ k.public_exponent = 65537 :=
  fun w => ⟨_, _, rfl, rfl, rfl⟩

/-- C4: BasicConstraints per role: root has ca true with no path
length, the intermediate has ca true with path length exactly 0, and
the server and client leaves have ca false (no path length). -/
theorem basic_constraints_per_role :
    (∀ (k : RSAKey) (days : Nat) (w : World), ∃ c w2,
      create_root_cert (Bytes.privKeyBytes k .PEM .PKCS8 false) days w
        = some (Bytes.certBytes c .PEM, w2) ∧
      bcOf c = some { ca := true, path_length := none }) ∧
    (∀ (ic : Certificate) (k p : RSAKey) (days : Nat) (w : World), ∃ c w2,
      create_signing_cert (Bytes.certBytes ic .PEM)
          (Bytes.privKeyBytes k .PEM .PKCS8 false)
          (Bytes.pubKeyBytes p .PEM .PKCS1) days w
        = some (Bytes.certBytes c .PEM, w2) ∧
      bcOf c = some { ca := true, path_length := some 0 }) ∧
    (∀ (ic : Certificate) (k p : RSAKey) (days : Nat) (w : World), ∃ c w2,
      create_server_cert (Bytes.certBytes ic .PEM)
          (Bytes.privKeyBytes k .PEM .PKCS8 false)
          (Bytes.pubKeyBytes p .PEM .PKCS1) days w
        = some (Bytes.certBytes c .PEM, w2) ∧
      bcOf c = some { ca := false, path_length := none }) ∧
    (∀ (k : RSAKey) (days : Nat) (w : World), ∃ c w2,
      create_selfsigned_client_cert (Bytes.privKeyBytes k .PEM .PKCS8 false) days w
        = some (Bytes.certBytes c .PEM, w2) ∧
      bcOf c = some { ca := false, path_length := none }) :=
  ⟨fun k days w => ⟨_, _, rfl, rfl⟩,
   fun ic k p days w => ⟨_, _, rfl, rfl⟩,
   fun ic k p days w => ⟨_, _, rfl, rfl⟩,
   fun k days w => ⟨_, _, rfl, rfl⟩⟩

/-- C5: the KeyUsage extension of each certificate is exactly the fixed
constant of its role, with every bit spelled out: root and intermediate
carry CA_KEYUSAGE (digitalSignature, keyCertSign, cRLSign set, all
else unset), the server carries ENTITY_KEYUSAGE (digitalSignature,
keyEncipherment set, all else unset), and the self-signed client
carries SELFSIGNED_ENTITY_KEYUSAGE (digitalSignature, keyEncipherment,
keyCertSign set, all else unset, in particular cRLSign unset). -/
theorem key_usage_per_role :
    CA_KEYUSAGE = { digital_signature := true, content_commitment := false,
                    key_encipherment := false, data_encipherment := false,
                    key_agreement := false, key_cert_sign := true, crl_sign := true,
                    encipher_only := false, decipher_only := false } ∧
    ENTITY_KEYUSAGE = { digital_signature := true, content_commitment := false,
                        key_encipherment := true, data_encipherment := false,
                        key_agreement := false, key_cert_sign := false, crl_sign := false,
                        encipher_only := false, decipher_only := false } ∧
    SELFSIGNED_ENTITY_KEYUSAGE = { digital_signature := true, content_commitment := false,
                                   key_encipherment := true, data_encipherment := false,
                                   key_agreement := false, key_cert_sign := true,
                                   crl_sign := false, encipher_only := false,
                                   decipher_only := false } ∧
    (∀ (k : RSAKey) (days : Nat) (w : World), ∃ c w2,
      create_root_cert (Bytes.privKeyBytes k .PEM .PKCS8 false) days w
        = some (Bytes.certBytes c .PEM, w2) ∧
      kuOf c = some CA_KEYUSAGE) ∧
    (∀ (ic : Certificate) (k p : RSAKey) (days : Nat) (w : World), ∃ c w2,
      create_signing_cert (Bytes.certBytes ic .PEM)
          (Bytes.privKeyBytes k .PEM .PKCS8 false)
          (Bytes.pubKeyBytes p .PEM .PKCS1) days w
        = some (Bytes.certBytes c .PEM, w2) ∧
      kuOf c = some CA_KEYUSAGE) ∧
    (∀ (ic : Certificate) (k p : RSAKey) (days : Nat) (w : World), ∃ c w2,
      create_server_cert (Bytes.certBytes ic .PEM)
          (Bytes.privKeyBytes k .PEM .PKCS8 false)
          (Bytes.pubKeyBytes p .PEM .PKCS1) days w
        = some (Bytes.certBytes c .PEM, w2) ∧
      kuOf c = some ENTITY_KEYUSAGE) ∧
    (∀ (k : RSAKey) (days : Nat) (w : World), ∃ c w2,
      create_selfsigned_client_cert (Bytes.privKeyBytes k .PEM .PKCS8 false) days w
        = some (Bytes.certBytes c .PEM, w2) ∧
      kuOf c = some SELFSIGNED_ENTITY_KEYUSAGE) :=
  ⟨rfl, rfl, rfl,
   fun k days w => ⟨_, _, rfl, rfl⟩,
   fun ic k p days w => ⟨_, _, rfl, rfl⟩,
   fun ic k p days w => ⟨_, _, rfl, rfl⟩,
   fun k days w => ⟨_, _, rfl, rfl⟩⟩

/-- C6: extension criticality per certificate: BasicConstraints and
KeyUsage are critical in all four certificates; SubjectAlternativeName
and ExtendedKeyUsage are critical in the server and client leaves;
SubjectKeyIdentifier and AuthorityKeyIdentifier are non-critical in all
four certificates. -/
theorem extension_criticality :
    (∀ (k : RSAKey) (days : Nat) (w : World), ∃ c w2,
      create_root_cert (Bytes.privKeyBytes k .PEM .PKCS8 false) days w
        = some (Bytes.certBytes c .PEM, w2) ∧
      critOf c .basic_constraints = some true ∧ critOf c .key_usage = some true ∧
      critOf c .subject_key_id = some false ∧ critOf c .authority_key_id = some false) ∧
    (∀ (ic : Certificate) (k p : RSAKey) (days : Nat) (w : World), ∃ c w2,
      create_signing_cert (Bytes.certBytes ic .PEM)
          (Bytes.privKeyBytes k .PEM .PKCS8 false)
          (Bytes.pubKeyBytes p .PEM .PKCS1) days w
        = some (Bytes.certBytes c .PEM, w2) ∧
      critOf c .basic_constraints = some true ∧ critOf c .key_usage = some true ∧
      critOf c .subject_key_id = some false ∧ critOf c .authority_key_id = some false) ∧
    (∀ (ic : Certificate) (k p : RSAKey) (days : Nat) (w : World), ∃ c w2,
      create_server_cert (Bytes.certBytes ic .PEM)
          (Bytes.privKeyBytes k .PEM .PKCS8 false)
          (Bytes.pubKeyBytes p .PEM .PKCS1) days w
        = some (Bytes.certBytes c .PEM, w2) ∧
      critOf c .basic_constraints = some true ∧ critOf c .key_usage = some true ∧
      critOf c .subject_alt_name = some true ∧ critOf c .ext_key_usage = some true ∧
      critOf c .subject_key_id = some false ∧ critOf c .authority_key_id = some false) ∧
    (∀ (k : RSAKey) (days : Nat) (w : World), ∃ c w2,
      create_selfsigned_client_cert (Bytes.privKeyBytes k .PEM .PKCS8 false) days w
        = some (Bytes.certBytes c .PEM, w2) ∧
      critOf c .basic_constraints = some true ∧ critOf c .key_usage = some true ∧
      critOf c .subject_alt_name = some true ∧ critOf c .ext_key_usage = some true ∧
      critOf c .subject_key_id = some false ∧ critOf c .authority_key_id = some false) :=
  ⟨fun k days w => ⟨_, _, rfl, rfl, rfl, rfl, rfl⟩,
   fun ic k p days w => ⟨_, _, rfl, rfl, rfl, rfl, rfl⟩,
   fun ic k p days w => ⟨_, _, rfl, rfl, rfl, rfl, rfl, rfl, rfl⟩,
   fun k days w => ⟨_, _, rfl, rfl, rfl, rfl, rfl, rfl, rfl⟩⟩

/-- C1: issuer DN linkage and key identifier chaining.  Each builder
sets the issuer DN to the subject DN of the issuer certificate (or to
its own subject DN for the two self-signed roles), derives the
AuthorityKeyIdentifier from the issuer public key and the
SubjectKeyIdentifier from the certificate's own public key; and in a
full provisioning run from the empty store each built certificate's
AKI equals the public key of the key pair that signed it, its SKI
equals its own public key, and the two self-signed certificates have
AKI equal to their own SKI. -/
theorem issuer_and_key_identifier_chain :
    (∀ (k : RSAKey) (days : Nat) (w : World), ∃ c w2,
      create_root_cert (Bytes.privKeyBytes k .PEM .PKCS8 false) days w
        = some (Bytes.certBytes c .PEM, w2) ∧
      c.subject = ROOT_DN ∧ c.issuer = c.subject ∧
      akiOf c = some k ∧ skiOf c = some k ∧ akiOf c = skiOf c ∧
      c.signature_key = k) ∧
    (∀ (ic : Certificate) (k p : RSAKey) (days : Nat) (w : World), ∃ c w2,
      create_signing_cert (Bytes.certBytes ic .PEM)
          (Bytes.privKeyBytes k .PEM .PKCS8 false)
          (Bytes.pubKeyBytes p .PEM .PKCS1) days w
        = some (Bytes.certBytes c .PEM, w2) ∧
      c.subject = INTERMEDIATE_DN ∧ c.issuer = ic.subject ∧
      akiOf c = some ic.public_key ∧ skiOf c = some p ∧
      c.signature_key = k) ∧
    (∀ (ic : Certificate) (k p : RSAKey) (days : Nat) (w : World), ∃ c w2,
      create_server_cert (Bytes.certBytes ic .PEM)
          (Bytes.privKeyBytes k .PEM .PKCS8 false)
          (Bytes.pubKeyBytes p .PEM .PKCS1) days w
        = some (Bytes.certBytes c .PEM, w2) ∧
      c.subject = SERVER_DN ∧ c.issuer = ic.subject ∧
      akiOf c = some ic.public_key ∧ skiOf c = some p ∧
      c.signature_key = k) ∧
    (∀ (k : RSAKey) (days : Nat) (w : World), ∃ c w2,
      create_selfsigned_client_cert (Bytes.privKeyBytes k .PEM .PKCS8 false) days w
        = some (Bytes.certBytes c .PEM, w2) ∧
      c.subject = CLIENT_DN ∧ c.issuer = c.subject ∧
      akiOf c = some k ∧ skiOf c = some k ∧ akiOf c = skiOf c ∧
      c.signature_key = k) ∧
    (∀ w : World, ∃ rc sc vc cc : Certificate,
      (x509gen.main emptyStore w).store.root_cert = some (Bytes.certBytes rc .PEM) ∧
      (x509gen.main emptyStore w).store.signing_cert = some (Bytes.certBytes sc .PEM) ∧
      (x509gen.main emptyStore w).store.server_cert = some (Bytes.certBytes vc .PEM) ∧
      (x509gen.main emptyStore w).store.client_cert = some (Bytes.certBytes cc .PEM) ∧
      rc.issuer = rc.subject ∧ cc.issuer = cc.subject ∧
      sc.issuer = rc.subject ∧ vc.issuer = sc.subject ∧
      skiOf rc = some rc.public_key ∧ skiOf sc = some sc.public_key ∧
      skiOf vc = some vc.public_key ∧ skiOf cc = some cc.public_key ∧
      akiOf rc = some rc.signature_key ∧ akiOf sc = some sc.signature_key ∧
      akiOf vc = some vc.signature_key ∧ akiOf cc = some cc.signature_key ∧
      sc.signature_key = rc.public_key ∧ vc.signature_key = sc.public_key ∧
      rc.signature_key = rc.public_key ∧ cc.signature_key = cc.public_key ∧
      akiOf rc = skiOf rc ∧ akiOf cc = skiOf cc) :=
  ⟨fun k days w => ⟨_, _, rfl, rfl, rfl, rfl, rfl, rfl, rfl⟩,
   fun ic k p days w => ⟨_, _, rfl, rfl, rfl, rfl, rfl, rfl⟩,
   fun ic k p days w => ⟨_, _, rfl, rfl, rfl, rfl, rfl, rfl⟩,
   fun k days w => ⟨_, _, rfl, rfl, rfl, rfl, rfl, rfl, rfl⟩,
   fun w => ⟨_, _, _, _, rfl, rfl, rfl, rfl, rfl, rfl, rfl, rfl, rfl, rfl, rfl, rfl,
             rfl, rfl, rfl, rfl, rfl, rfl, rfl, rfl, rfl, rfl⟩⟩

/-- C7: the shared builder helper sets notBefore to the current clock
reading at build time and notAfter to exactly notBefore plus the
requested number of days (in seconds); and in a provisioning run from
the empty store the root certificate is built with a 365-day window
while the signing, server and client certificates are built with
14-day windows, each certificate's notBefore being the clock reading
taken when it was built. -/
theorem validity_windows :
    (∀ (pub : RSAKey) (sdn idn : DistName) (days : Nat) (w : World),
      (_cert_helper pub sdn idn days w).1.not_valid_before = some (w.nowAt w.clock) ∧
      (_cert_helper pub sdn idn days w).1.not_valid_after
        = some (w.nowAt w.clock + days * 86400)) ∧
    (∀ w : World, ∃ rc sc vc cc : Certificate,
      (x509gen.main emptyStore w).store.root_cert = some (Bytes.certBytes rc .PEM) ∧
      (x509gen.main emptyStore w).store.signing_cert = some (Bytes.certBytes sc .PEM) ∧
      (x509gen.main emptyStore w).store.server_cert = some (Bytes.certBytes vc .PEM) ∧
      (x509gen.main emptyStore w).store.client_cert = some (Bytes.certBytes cc .PEM) ∧
      rc.not_valid_before = w.nowAt w.clock ∧
      rc.not_valid_after = rc.not_valid_before + 365 * 86400 ∧
      sc.not_valid_before = w.nowAt (w.clock + 1) ∧
      sc.not_valid_after = sc.not_valid_before + 14 * 86400 ∧
      vc.not_valid_before = w.nowAt (w.clock + 2) ∧
      vc.not_valid_after = vc.not_valid_before + 14 * 86400 ∧
      cc.not_valid_before = w.nowAt (w.clock + 3) ∧
      cc.not_valid_after = cc.not_valid_before + 14 * 86400) :=
  ⟨fun pub sdn idn days w => ⟨rfl, rfl⟩,
   fun w => ⟨_, _, _, _, rfl, rfl, rfl, rfl, rfl, rfl, rfl, rfl, rfl, rfl, rfl, rfl⟩⟩

/-- C2: running the provisioning entry point against a store in which
every artifact slot is already present writes nothing: the run performs
zero writes, ends without error, and leaves every stored byte sequence
exactly as it was. -/
theorem idempotent_when_fully_populated (st : Store) (w : World)
    (h1 : st.root_ca_priv_key.isSome = true) (h2 : st.root_ca_pub_key.isSome = true)
    (h3 : st.root_cert.isSome = true) (h4 : st.signing_ca_priv_key.isSome = true)
    (h5 : st.signing_ca_pub_key.isSome = true) (h6 : st.signing_cert.isSome = true)
    (h7 : st.server_priv_key.isSome = true) (h8 : st.server_pub_key.isSome = true)
    (h9 : st.server_cert.isSome = true) (h10 : st.client_priv_key.isSome = true)
    (h11 : st.client_pub_key.isSome = true) (h12 : st.client_cert.isSome = true) :
    x509gen.main st w = { store := st, writes := [], error := none } := by
  obtain ⟨a1, e1⟩ := Option.isSome_iff_exists.mp h1
  obtain ⟨a2, e2⟩ := Option.isSome_iff_exists.mp h2
  obtain ⟨a3, e3⟩ := Option.isSome_iff_exists.mp h3
  obtain ⟨a4, e4⟩ := Option.isSome_iff_exists.mp h4
  obtain ⟨a5, e5⟩ := Option.isSome_iff_exists.mp h5
  obtain ⟨a6, e6⟩ := Option.isSome_iff_exists.mp h6
  obtain ⟨a7, e7⟩ := Option.isSome_iff_exists.mp h7
  obtain ⟨a8, e8⟩ := Option.isSome_iff_exists.mp h8
  obtain ⟨a9, e9⟩ := Option.isSome_iff_exists.mp h9
  obtain ⟨a10, e10⟩ := Option.isSome_iff_exists.mp h10
  obtain ⟨a11, e11⟩ := Option.isSome_iff_exists.mp h11
  obtain ⟨a12, e12⟩ := Option.isSome_iff_exists.mp h12
  simp [x509gen.main, step_root_keys, step_root_cert, step_signing_keys,
        step_signing_cert, step_server_keys, step_server_cert, step_client_keys,
        step_client_cert, e1, e2, e3, e4, e5, e6, e7, e8, e9, e10, e11, e12]

/-- A fully populated store holding arbitrary (even unparseable) bytes
in every slot. -/
def fullGarbageStore : Store :=
  { root_ca_priv_key := some (.garbage 0), root_ca_pub_key := some (.garbage 1),
    root_cert := some (.garbage 2),
    signing_ca_priv_key := some (.garbage 3), signing_ca_pub_key := some (.garbage 4),
    signing_cert := some (.garbage 5),
    server_priv_key := some (.garbage 6), server_pub_key := some (.garbage 7),
    server_cert := some (.garbage 8),
    client_priv_key := some (.garbage 9), client_pub_key := some (.garbage 10),
    client_cert := some (.garbage 11) }

/-- Witness for C2 at a concrete fully populated store. -/
theorem idempotent_when_fully_populated_witness :
    x509gen.main fullGarbageStore exampleWorld
      = { store := fullGarbageStore, writes := [], error := none } :=
  idempotent_when_fully_populated fullGarbageStore exampleWorld
    rfl rfl rfl rfl rfl rfl rfl rfl rfl rfl rfl rfl

/-- A store whose key slots hold well-formed serialized keys, whose
certificate slots hold any optional well-formed certificates, and
whose root and client public-key slots hold arbitrary bytes. -/
def keyedStore (kr ks kv kc : RSAKey) (rootPub clientPub : Bytes)
    (rc sc vc cc : Option Certificate) : Store :=
  { root_ca_priv_key := some (Bytes.privKeyBytes kr .PEM .PKCS8 false),
    root_ca_pub_key := some rootPub,
    root_cert := rc.map (fun c => Bytes.certBytes c .PEM),
    signing_ca_priv_key := some (Bytes.privKeyBytes ks .PEM .PKCS8 false),
    signing_ca_pub_key := some (Bytes.pubKeyBytes ks .PEM .PKCS1),
    signing_cert := sc.map (fun c => Bytes.certBytes c .PEM),
    server_priv_key := some (Bytes.privKeyBytes kv .PEM .PKCS8 false),
    server_pub_key := some (Bytes.pubKeyBytes kv .PEM .PKCS1),
    server_cert := vc.map (fun c => Bytes.certBytes c .PEM),
    client_priv_key := some (Bytes.privKeyBytes kc .PEM .PKCS8 false),
    client_pub_key := some clientPub,
    client_cert := cc.map (fun c => Bytes.certBytes c .PEM) }

/-- C9: the root and client certificate builders take only the PEM
private key and embed the public key derived from it, and a
provisioning run never uses the stored root or client public-key
artifacts: two stores that differ only in the bytes held in the root
and client public-key slots produce identical writes, identical
outcome, and identical contents in every other slot. -/
theorem pub_key_slots_unused :
    (∀ (k : RSAKey) (days : Nat) (w : World), ∃ c w2,
      create_root_cert (Bytes.privKeyBytes k .PEM .PKCS8 false) days w
        = some (Bytes.certBytes c .PEM, w2) ∧
      c.public_key = k) ∧
    (∀ (k : RSAKey) (days : Nat) (w : World), ∃ c w2,
      create_selfsigned_client_cert (Bytes.privKeyBytes k .PEM .PKCS8 false) days w
        = some (Bytes.certBytes c .PEM, w2) ∧
      c.public_key = k) ∧
    (∀ (w : World) (kr ks kv kc : RSAKey) (b1 b2 c1 c2 : Bytes)
        (rc sc vc cc : Option Certificate),
      (x509gen.main (keyedStore kr ks kv kc b1 c1 rc sc vc cc) w).writes
        = (x509gen.main (keyedStore kr ks kv kc b2 c2 rc sc vc cc) w).writes ∧
      (x509gen.main (keyedStore kr ks kv kc b1 c1 rc sc vc cc) w).error
        = (x509gen.main (keyedStore kr ks kv kc b2 c2 rc sc vc cc) w).error ∧
      (x509gen.main (keyedStore kr ks kv kc b1 c1 rc sc vc cc) w).store.root_ca_priv_key
        = (x509gen.main (keyedStore kr ks kv kc b2 c2 rc sc vc cc) w).store.root_ca_priv_key ∧
      (x509gen.main (keyedStore kr ks kv kc b1 c1 rc sc vc cc) w).store.root_cert
        = (x509gen.main (keyedStore kr ks kv kc b2 c2 rc sc vc cc) w).store.root_cert ∧
      (x509gen.main (keyedStore kr ks kv kc b1 c1 rc sc vc cc) w).store.signing_ca_priv_key
        = (x509gen.main (keyedStore kr ks kv kc b2 c2 rc sc vc cc) w).store.signing_ca_priv_key ∧
      (x509gen.main (keyedStore kr ks kv kc b1 c1 rc sc vc cc) w).store.signing_ca_pub_key
        = (x509gen.main (keyedStore kr ks kv kc b2 c2 rc sc vc cc) w).store.signing_ca_pub_key ∧
      (x509gen.main (keyedStore kr ks kv kc b1 c1 rc sc vc cc) w).store.signing_cert
        = (x509gen.main (keyedStore kr ks kv kc b2 c2 rc sc vc cc) w).store.signing_cert ∧
      (x509gen.main (keyedStore kr ks kv kc b1 c1 rc sc vc cc) w).store.server_priv_key
        = (x509gen.main (keyedStore kr ks kv kc b2 c2 rc sc vc cc) w).store.server_priv_key ∧
      (x509gen.main (keyedStore kr ks kv kc b1 c1 rc sc vc cc) w).store.server_pub_key
        = (x509gen.main (keyedStore kr ks kv kc b2 c2 rc sc vc cc) w).store.server_pub_key ∧
      (x509gen.main (keyedStore kr ks kv kc b1 c1 rc sc vc cc) w).store.server_cert
        = (x509gen.main (keyedStore kr ks kv kc b2 c2 rc sc vc cc) w).store.server_cert ∧
      (x509gen.main (keyedStore kr ks kv kc b1 c1 rc sc vc cc) w).store.client_priv_key
        = (x509gen.main (keyedStore kr ks kv kc b2 c2 rc sc vc cc) w).store.client_priv_key ∧
      (x509gen.main (keyedStore kr ks kv kc b1 c1 rc sc vc cc) w).store.client_cert
        = (x509gen.main (keyedStore kr ks kv kc b2 c2 rc sc vc cc) w).store.client_cert) := by
  refine ⟨fun k days w => ⟨_, _, rfl, rfl⟩, fun k days w => ⟨_, _, rfl, rfl⟩, ?_⟩
  intro w kr ks kv kc b1 b2 c1 c2 rc sc vc cc
  rcases rc with _ | r <;> rcases sc with _ | s <;> rcases vc with _ | v <;>
    rcases cc with _ | c <;>
    exact ⟨rfl, rfl, rfl, rfl, rfl, rfl, rfl, rfl, rfl, rfl, rfl, rfl⟩

/-- A store holding corrupt bytes in the signing-certificate slot (and
in the other populated slots), with all server and client slots absent. -/
def corruptSigningStore : Store :=
  { root_ca_priv_key := some (.garbage 0), root_ca_pub_key := some (.garbage 1),
    root_cert := some (.garbage 2),
    signing_ca_priv_key := some (.garbage 3), signing_ca_pub_key := some (.garbage 4),
    signing_cert := some (.garbage 5),
    server_priv_key := none, server_pub_key := none, server_cert := none,
    client_priv_key := none, client_pub_key := none, client_cert := none }

/-- Counterexample to C3 as stated: with corrupt bytes in the
signing-certificate slot, the run does fail with a parse error, but
only while building the server certificate, and before that it has
already newly created and persisted the server key slot, which is
ordered after the signing certificate. -/
theorem corrupt_signing_cert_counterexample :
    load_pem_x509_certificate (Bytes.garbage 5) = none ∧
    corruptSigningStore.signing_cert = some (Bytes.garbage 5) ∧
    (x509gen.main corruptSigningStore exampleWorld).error
      = some (RunError.parse_failure FileName.server_cert) ∧
    (x509gen.main corruptSigningStore exampleWorld).writes.map Prod.fst
      = [FileName.server_priv_key, FileName.server_pub_key] := by
  decide

/-- C3 amended: if the signing-certificate slot holds unparseable bytes
and the root certificate is present, a run that finds the
server-certificate slot absent aborts with a parse error while
building the server certificate; the server certificate and all client
slots are neither created nor persisted in that run, but the server
key slot, if absent, is newly created and persisted before the
failure. -/
theorem corrupt_signing_cert_amended (st : Store) (w : World) (b : Bytes)
    (hsc : st.signing_cert = some b)
    (hbad : load_pem_x509_certificate b = none)
    (hroot : st.root_cert.isSome = true)
    (hnos : st.server_cert = none) :
    (x509gen.main st w).error = some (RunError.parse_failure FileName.server_cert) ∧
    FileName.server_cert ∉ (x509gen.main st w).writes.map Prod.fst ∧
    FileName.client_priv_key ∉ (x509gen.main st w).writes.map Prod.fst ∧
    FileName.client_pub_key ∉ (x509gen.main st w).writes.map Prod.fst ∧
    FileName.client_cert ∉ (x509gen.main st w).writes.map Prod.fst ∧
    (x509gen.main st w).store.server_cert = none ∧
    (x509gen.main st w).store.client_priv_key = st.client_priv_key ∧
    (x509gen.main st w).store.client_pub_key = st.client_pub_key ∧
    (x509gen.main st w).store.client_cert = st.client_cert ∧
    (st.server_priv_key = none →
      FileName.server_priv_key ∈ (x509gen.main st w).writes.map Prod.fst ∧
      FileName.server_pub_key ∈ (x509gen.main st w).writes.map Prod.fst) := by
  obtain ⟨rcert, hrc⟩ := Option.isSome_iff_exists.mp hroot
  rcases e1 : st.root_ca_priv_key with _ | a1 <;>
  rcases e2 : st.root_ca_pub_key with _ | a2 <;>
  rcases e4 : st.signing_ca_priv_key with _ | a4 <;>
  rcases e5 : st.signing_ca_pub_key with _ | a5 <;>
  rcases e7 : st.server_priv_key with _ | a7 <;>
  rcases e8 : st.server_pub_key with _ | a8 <;>
    simp [x509gen.main, step_root_keys, step_root_cert, step_signing_keys,
          step_signing_cert, step_server_keys, step_server_cert, step_client_keys,
          step_client_cert, create_rsa_key_pair, create_server_cert, writeFile,
          setFile, World.fresh, hsc, hbad, hrc, hnos, e1, e2, e4, e5, e7, e8]

/-- Witness for the amended C3 at a concrete corrupt store. -/
theorem corrupt_signing_cert_amended_witness :
    (x509gen.main corruptSigningStore exampleWorld).error
      = some (RunError.parse_failure FileName.server_cert) ∧
    FileName.client_cert ∉ (x509gen.main corruptSigningStore exampleWorld).writes.map Prod.fst ∧
    FileName.server_priv_key ∈ (x509gen.main corruptSigningStore exampleWorld).writes.map Prod.fst := by
  have h := corrupt_signing_cert_amended corruptSigningStore exampleWorld
    (Bytes.garbage 5) rfl rfl rfl rfl
  exact ⟨h.1, h.2.2.2.2.1, (h.2.2.2.2.2.2.2.2.2 rfl).1⟩

/-- The eight create-or-reuse slots of the provisioning run. -/
inductive Slot where
  | root_keys
  | root_cert
  | signing_keys
  | signing_cert
  | server_keys
  | server_cert
  | client_keys
  | client_cert
deriving DecidableEq

/-- The files belonging to each slot (key slots hold two files). -/
def slotFiles : Slot → List FileName
  | .root_keys => [.root_ca_priv_key, .root_ca_pub_key]
  | .root_cert => [.root_cert]
  | .signing_keys => [.signing_ca_priv_key, .signing_ca_pub_key]
  | .signing_cert => [.signing_cert]
  | .server_keys => [.server_priv_key, .server_pub_key]
  | .server_cert => [.server_cert]
  | .client_keys => [.client_priv_key, .client_pub_key]
  | .client_cert => [.client_cert]

/-- The slot a file belongs to. -/
def slotOf : FileName → Slot
  | .root_ca_priv_key => .root_keys
  | .root_ca_pub_key => .root_keys
  | .root_cert => .root_cert
  | .signing_ca_priv_key => .signing_keys
  | .signing_ca_pub_key => .signing_keys
  | .signing_cert => .signing_cert
  | .server_priv_key => .server_keys
  | .server_pub_key => .server_keys
  | .server_cert => .server_cert
  | .client_priv_key => .client_keys
  | .client_pub_key => .client_keys
  | .client_cert => .client_cert

/-- A slot is present when every one of its files can be read. -/
def slotPresent (st : Store) (s : Slot) : Prop :=
  ∀ g ∈ slotFiles s, (slotGet st g).isSome = true

/-- Every file belongs to the file list of its own slot. -/
lemma mem_slotFiles_slotOf (f : FileName) : f ∈ slotFiles (slotOf f) := by
  cases f <;> decide

/-- The slot file lists are pairwise disjoint. -/
lemma slotFiles_disjoint (g : FileName) (s1 s2 : Slot)
    (h1 : g ∈ slotFiles s1) (h2 : g ∈ slotFiles s2) : s1 = s2 := by
  cases g <;> cases s1 <;> cases s2 <;>
    first
      | rfl
      | exact absurd h1 (by decide)
      | exact absurd h2 (by decide)

/-- Reading after a write: the written file holds the new bytes, every
other file is unchanged. -/
lemma slotGet_setFile (st : Store) (g f : FileName) (b : Bytes) :
    slotGet (setFile st g b) f = if f = g then some b else slotGet st f := by
  cases f <;> cases g <;> simp [setFile, slotGet]


/-- The root key block leaves every file outside its slot unchanged and
unlogged, and also its own files when its slot is fully present. -/
lemma step_root_keys_keep (w : World) (s : RunState) (f : FileName)
    (v1 v2 : Bytes) (s2 : RunState) (w2 : World)
    (hstep : step_root_keys w s = (v1, v2, s2, w2))
    (h : f = FileName.root_ca_priv_key ∨ f = FileName.root_ca_pub_key →
      s.store.root_ca_priv_key.isSome = true ∧ s.store.root_ca_pub_key.isSome = true) :
    slotGet s2.store f = slotGet s.store f ∧
    (f ∈ s2.writes.map Prod.fst ↔ f ∈ s.writes.map Prod.fst) := by
  rcases e1 : s.store.root_ca_priv_key with _ | a <;>
    rcases e2 : s.store.root_ca_pub_key with _ | b
  · have hf1 : f ≠ FileName.root_ca_priv_key := fun he => by
      have hx := (h (Or.inl he)).1; rw [e1] at hx; simp at hx
    have hf2 : f ≠ FileName.root_ca_pub_key := fun he => by
      have hx := (h (Or.inr he)).1; rw [e1] at hx; simp at hx
    simp only [step_root_keys, e1, e2, create_rsa_key_pair, World.fresh] at hstep
    obtain ⟨hv1, hv2, hs2, hw2⟩ := by simpa [Prod.ext_iff] using hstep
    subst hs2
    exact ⟨by simp [writeFile, slotGet_setFile, hf1, hf2],
           by simp [writeFile, hf1, hf2]⟩
  · have hf1 : f ≠ FileName.root_ca_priv_key := fun he => by
      have hx := (h (Or.inl he)).1; rw [e1] at hx; simp at hx
    have hf2 : f ≠ FileName.root_ca_pub_key := fun he => by
      have hx := (h (Or.inr he)).1; rw [e1] at hx; simp at hx
    simp only [step_root_keys, e1, e2, create_rsa_key_pair, World.fresh] at hstep
    obtain ⟨hv1, hv2, hs2, hw2⟩ := by simpa [Prod.ext_iff] using hstep
    subst hs2
    exact ⟨by simp [writeFile, slotGet_setFile, hf1, hf2],
           by simp [writeFile, hf1, hf2]⟩
  · have hf1 : f ≠ FileName.root_ca_priv_key := fun he => by
      have hx := (h (Or.inl he)).2; rw [e2] at hx; simp at hx
    have hf2 : f ≠ FileName.root_ca_pub_key := fun he => by
      have hx := (h (Or.inr he)).2; rw [e2] at hx; simp at hx
    simp only [step_root_keys, e1, e2, create_rsa_key_pair, World.fresh] at hstep
    obtain ⟨hv1, hv2, hs2, hw2⟩ := by simpa [Prod.ext_iff] using hstep
    subst hs2
    exact ⟨by simp [writeFile, slotGet_setFile, hf1, hf2],
           by simp [writeFile, hf1, hf2]⟩
  · simp only [step_root_keys, e1, e2] at hstep
    obtain ⟨hv1, hv2, hs2, hw2⟩ := by simpa [Prod.ext_iff] using hstep
    subst hs2
    exact ⟨rfl, Iff.rfl⟩

/-- The signing key block leaves every file outside its slot unchanged and
unlogged, and also its own files when its slot is fully present. -/
lemma step_signing_keys_keep (w : World) (s : RunState) (f : FileName)
    (v1 v2 : Bytes) (s2 : RunState) (w2 : World)
    (hstep : step_signing_keys w s = (v1, v2, s2, w2))
    (h : f = FileName.signing_ca_priv_key ∨ f = FileName.signing_ca_pub_key →
      s.store.signing_ca_priv_key.isSome = true ∧ s.store.signing_ca_pub_key.isSome = true) :
    slotGet s2.store f = slotGet s.store f ∧
    (f ∈ s2.writes.map Prod.fst ↔ f ∈ s.writes.map Prod.fst) := by
  rcases e1 : s.store.signing_ca_priv_key with _ | a <;>
    rcases e2 : s.store.signing_ca_pub_key with _ | b
  · have hf1 : f ≠ FileName.signing_ca_priv_key := fun he => by
      have hx := (h (Or.inl he)).1; rw [e1] at hx; simp at hx
    have hf2 : f ≠ FileName.signing_ca_pub_key := fun he => by
      have hx := (h (Or.inr he)).1; rw [e1] at hx; simp at hx
    simp only [step_signing_keys, e1, e2, create_rsa_key_pair, World.fresh] at hstep
    obtain ⟨hv1, hv2, hs2, hw2⟩ := by simpa [Prod.ext_iff] using hstep
    subst hs2
    exact ⟨by simp [writeFile, slotGet_setFile, hf1, hf2],
           by simp [writeFile, hf1, hf2]⟩
  · have hf1 : f ≠ FileName.signing_ca_priv_key := fun he => by
      have hx := (h (Or.inl he)).1; rw [e1] at hx; simp at hx
    have hf2 : f ≠ FileName.signing_ca_pub_key := fun he => by
      have hx := (h (Or.inr he)).1; rw [e1] at hx; simp at hx
    simp only [step_signing_keys, e1, e2, create_rsa_key_pair, World.fresh] at hstep
    obtain ⟨hv1, hv2, hs2, hw2⟩ := by simpa [Prod.ext_iff] using hstep
    subst hs2
    exact ⟨by simp [writeFile, slotGet_setFile, hf1, hf2],
           by simp [writeFile, hf1, hf2]⟩
  · have hf1 : f ≠ FileName.signing_ca_priv_key := fun he => by
      have hx := (h (Or.inl he)).2; rw [e2] at hx; simp at hx
    have hf2 : f ≠ FileName.signing_ca_pub_key := fun he => by
      have hx := (h (Or.inr he)).2; rw [e2] at hx; simp at hx
    simp only [step_signing_keys, e1, e2, create_rsa_key_pair, World.fresh] at hstep
    obtain ⟨hv1, hv2, hs2, hw2⟩ := by simpa [Prod.ext_iff] using hstep
    subst hs2
    exact ⟨by simp [writeFile, slotGet_setFile, hf1, hf2],
           by simp [writeFile, hf1, hf2]⟩
  · simp only [step_signing_keys, e1, e2] at hstep
    obtain ⟨hv1, hv2, hs2, hw2⟩ := by simpa [Prod.ext_iff] using hstep
    subst hs2
    exact ⟨rfl, Iff.rfl⟩

/-- The server key block leaves every file outside its slot unchanged and
unlogged, and also its own files when its slot is fully present. -/
lemma step_server_keys_keep (w : World) (s : RunState) (f : FileName)
    (v1 v2 : Bytes) (s2 : RunState) (w2 : World)
    (hstep : step_server_keys w s = (v1, v2, s2, w2))
    (h : f = FileName.server_priv_key ∨ f = FileName.server_pub_key →
      s.store.server_priv_key.isSome = true ∧ s.store.server_pub_key.isSome = true) :
    slotGet s2.store f = slotGet s.store f ∧
    (f ∈ s2.writes.map Prod.fst ↔ f ∈ s.writes.map Prod.fst) := by
  rcases e1 : s.store.server_priv_key with _ | a <;>
    rcases e2 : s.store.server_pub_key with _ | b
  · have hf1 : f ≠ FileName.server_priv_key := fun he => by
      have hx := (h (Or.inl he)).1; rw [e1] at hx; simp at hx
    have hf2 : f ≠ FileName.server_pub_key := fun he => by
      have hx := (h (Or.inr he)).1; rw [e1] at hx; simp at hx
    simp only [step_server_keys, e1, e2, create_rsa_key_pair, World.fresh] at hstep
    obtain ⟨hv1, hv2, hs2, hw2⟩ := by simpa [Prod.ext_iff] using hstep
    subst hs2
    exact ⟨by simp [writeFile, slotGet_setFile, hf1, hf2],
           by simp [writeFile, hf1, hf2]⟩
  · have hf1 : f ≠ FileName.server_priv_key := fun he => by
      have hx := (h (Or.inl he)).1; rw [e1] at hx; simp at hx
    have hf2 : f ≠ FileName.server_pub_key := fun he => by
      have hx := (h (Or.inr he)).1; rw [e1] at hx; simp at hx
    simp only [step_server_keys, e1, e2, create_rsa_key_pair, World.fresh] at hstep
    obtain ⟨hv1, hv2, hs2, hw2⟩ := by simpa [Prod.ext_iff] using hstep
    subst hs2
    exact ⟨by simp [writeFile, slotGet_setFile, hf1, hf2],
           by simp [writeFile, hf1, hf2]⟩
  · have hf1 : f ≠ FileName.server_priv_key := fun he => by
      have hx := (h (Or.inl he)).2; rw [e2] at hx; simp at hx
    have hf2 : f ≠ FileName.server_pub_key := fun he => by
      have hx := (h (Or.inr he)).2; rw [e2] at hx; simp at hx
    simp only [step_server_keys, e1, e2, create_rsa_key_pair, World.fresh] at hstep
    obtain ⟨hv1, hv2, hs2, hw2⟩ := by simpa [Prod.ext_iff] using hstep
    subst hs2
    exact ⟨by simp [writeFile, slotGet_setFile, hf1, hf2],
           by simp [writeFile, hf1, hf2]⟩
  · simp only [step_server_keys, e1, e2] at hstep
    obtain ⟨hv1, hv2, hs2, hw2⟩ := by simpa [Prod.ext_iff] using hstep
    subst hs2
    exact ⟨rfl, Iff.rfl⟩

/-- The client key block leaves every file outside its slot unchanged and
unlogged, and also its own files when its slot is fully present. -/
lemma step_client_keys_keep (w : World) (s : RunState) (f : FileName)
    (v1 v2 : Bytes) (s2 : RunState) (w2 : World)
    (hstep : step_client_keys w s = (v1, v2, s2, w2))
    (h : f = FileName.client_priv_key ∨ f = FileName.client_pub_key →
      s.store.client_priv_key.isSome = true ∧ s.store.client_pub_key.isSome = true) :
    slotGet s2.store f = slotGet s.store f ∧
    (f ∈ s2.writes.map Prod.fst ↔ f ∈ s.writes.map Prod.fst) := by
  rcases e1 : s.store.client_priv_key with _ | a <;>
    rcases e2 : s.store.client_pub_key with _ | b
  · have hf1 : f ≠ FileName.client_priv_key := fun he => by
      have hx := (h (Or.inl he)).1; rw [e1] at hx; simp at hx
    have hf2 : f ≠ FileName.client_pub_key := fun he => by
      have hx := (h (Or.inr he)).1; rw [e1] at hx; simp at hx
    simp only [step_client_keys, e1, e2, create_rsa_key_pair, World.fresh] at hstep
    obtain ⟨hv1, hv2, hs2, hw2⟩ := by simpa [Prod.ext_iff] using hstep
    subst hs2
    exact ⟨by simp [writeFile, slotGet_setFile, hf1, hf2],
           by simp [writeFile, hf1, hf2]⟩
  · have hf1 : f ≠ FileName.client_priv_key := fun he => by
      have hx := (h (Or.inl he)).1; rw [e1] at hx; simp at hx
    have hf2 : f ≠ FileName.client_pub_key := fun he => by
      have hx := (h (Or.inr he)).1; rw [e1] at hx; simp at hx
    simp only [step_client_keys, e1, e2, create_rsa_key_pair, World.fresh] at hstep
    obtain ⟨hv1, hv2, hs2, hw2⟩ := by simpa [Prod.ext_iff] using hstep
    subst hs2
    exact ⟨by simp [writeFile, slotGet_setFile, hf1, hf2],
           by simp [writeFile, hf1, hf2]⟩
  · have hf1 : f ≠ FileName.client_priv_key := fun he => by
      have hx := (h (Or.inl he)).2; rw [e2] at hx; simp at hx
    have hf2 : f ≠ FileName.client_pub_key := fun he => by
      have hx := (h (Or.inr he)).2; rw [e2] at hx; simp at hx
    simp only [step_client_keys, e1, e2, create_rsa_key_pair, World.fresh] at hstep
    obtain ⟨hv1, hv2, hs2, hw2⟩ := by simpa [Prod.ext_iff] using hstep
    subst hs2
    exact ⟨by simp [writeFile, slotGet_setFile, hf1, hf2],
           by simp [writeFile, hf1, hf2]⟩
  · simp only [step_client_keys, e1, e2] at hstep
    obtain ⟨hv1, hv2, hs2, hw2⟩ := by simpa [Prod.ext_iff] using hstep
    subst hs2
    exact ⟨rfl, Iff.rfl⟩

/-- The root certificate block leaves every file outside its slot unchanged and
unlogged, and also its own file when its slot is present. -/
lemma step_root_cert_keep (v : Bytes) (w : World) (s : RunState) (f : FileName)
    (r : Res Bytes) (hstep : step_root_cert v w s = r)
    (h : f = FileName.root_cert → s.store.root_cert.isSome = true) :
    slotGet r.state.store f = slotGet s.store f ∧
    (f ∈ r.state.writes.map Prod.fst ↔ f ∈ s.writes.map Prod.fst) := by
  subst hstep
  rcases e : s.store.root_cert with _ | c
  · have hf : f ≠ FileName.root_cert := fun he => by
      have hx := h he; rw [e] at hx; simp at hx
    rcases e2 : create_root_cert v 365 w with _ | ⟨cert, w3⟩ <;>
      simp [step_root_cert, e, e2, Res.state, writeFile, slotGet_setFile, hf]
  · simp [step_root_cert, e, Res.state]

/-- The signing certificate block leaves every file outside its slot unchanged and
unlogged, and also its own file when its slot is present. -/
lemma step_signing_cert_keep (v1 v2 v3 : Bytes) (w : World) (s : RunState) (f : FileName)
    (r : Res Bytes) (hstep : step_signing_cert v1 v2 v3 w s = r)
    (h : f = FileName.signing_cert → s.store.signing_cert.isSome = true) :
    slotGet r.state.store f = slotGet s.store f ∧
    (f ∈ r.state.writes.map Prod.fst ↔ f ∈ s.writes.map Prod.fst) := by
  subst hstep
  rcases e : s.store.signing_cert with _ | c
  · have hf : f ≠ FileName.signing_cert := fun he => by
      have hx := h he; rw [e] at hx; simp at hx
    rcases e2 : create_signing_cert v1 v2 v3 14 w with _ | ⟨cert, w3⟩ <;>
      simp [step_signing_cert, e, e2, Res.state, writeFile, slotGet_setFile, hf]
  · simp [step_signing_cert, e, Res.state]

/-- The server certificate block leaves every file outside its slot unchanged and
unlogged, and also its own file when its slot is present. -/
lemma step_server_cert_keep (v1 v2 v3 : Bytes) (w : World) (s : RunState) (f : FileName)
    (r : Res Bytes) (hstep : step_server_cert v1 v2 v3 w s = r)
    (h : f = FileName.server_cert → s.store.server_cert.isSome = true) :
    slotGet r.state.store f = slotGet s.store f ∧
    (f ∈ r.state.writes.map Prod.fst ↔ f ∈ s.writes.map Prod.fst) := by
  subst hstep
  rcases e : s.store.server_cert with _ | c
  · have hf : f ≠ FileName.server_cert := fun he => by
      have hx := h he; rw [e] at hx; simp at hx
    rcases e2 : create_server_cert v1 v2 v3 14 w with _ | ⟨cert, w3⟩ <;>
      simp [step_server_cert, e, e2, Res.state, writeFile, slotGet_setFile, hf]
  · simp [step_server_cert, e, Res.state]

/-- The client certificate block leaves every file outside its slot unchanged and
unlogged, and also its own file when its slot is present. -/
lemma step_client_cert_keep (v : Bytes) (w : World) (s : RunState) (f : FileName)
    (r : Res Bytes) (hstep : step_client_cert v w s = r)
    (h : f = FileName.client_cert → s.store.client_cert.isSome = true) :
    slotGet r.state.store f = slotGet s.store f ∧
    (f ∈ r.state.writes.map Prod.fst ↔ f ∈ s.writes.map Prod.fst) := by
  subst hstep
  rcases e : s.store.client_cert with _ | c
  · have hf : f ≠ FileName.client_cert := fun he => by
      have hx := h he; rw [e] at hx; simp at hx
    rcases e2 : create_selfsigned_client_cert v 14 w with _ | ⟨cert, w3⟩ <;>
      simp [step_client_cert, e, e2, Res.state, writeFile, slotGet_setFile, hf]
  · simp [step_client_cert, e, Res.state]

/-- Any file whose slot is fully present is preserved byte for byte by
a provisioning run and is never written. -/
lemma main_keeps_present_files (st : Store) (w : World) (f : FileName)
    (hpres : ∀ g ∈ slotFiles (slotOf f), (slotGet st g).isSome = true) :
    slotGet (x509gen.main st w).store f = slotGet st f ∧
    f ∉ (x509gen.main st w).writes.map Prod.fst := by
  suffices h : ∀ g ∈ slotFiles (slotOf f),
      slotGet (x509gen.main st w).store g = slotGet st g ∧
      g ∉ (x509gen.main st w).writes.map Prod.fst from
    h f (mem_slotFiles_slotOf f)
  simp only [x509gen.main]
  have P1 : ∀ g ∈ slotFiles (slotOf f),
      slotGet ((step_root_keys w { store := st, writes := [] }).2.2.1).store g
        = slotGet st g ∧
      g ∉ ((step_root_keys w { store := st, writes := [] }).2.2.1).writes.map Prod.fst := by
    intro g hg
    have K := step_root_keys_keep w { store := st, writes := [] } g _ _ _ _ rfl (by
      intro hor
      have hmem : g ∈ slotFiles Slot.root_keys := by
        rcases hor with hh | hh <;> simp [hh, slotFiles]
      have hslot : slotOf f = Slot.root_keys :=
        slotFiles_disjoint g (slotOf f) Slot.root_keys hg hmem
      have ho1 : FileName.root_ca_priv_key ∈ slotFiles (slotOf f) := by rw [hslot]; decide
      have ho2 : FileName.root_ca_pub_key ∈ slotFiles (slotOf f) := by rw [hslot]; decide
      exact ⟨hpres _ ho1, hpres _ ho2⟩)
    exact ⟨K.1, fun hm => by simpa using K.2.mp hm⟩
  rcases q2 : step_root_cert (step_root_keys w { store := st, writes := [] }).1
      (step_root_keys w { store := st, writes := [] }).2.2.2
      (step_root_keys w { store := st, writes := [] }).2.2.1 with ⟨rcrt, s2, w2⟩ | ⟨s2, er2⟩
  case _ =>
    dsimp only
    have P2 : ∀ g ∈ slotFiles (slotOf f),
        slotGet s2.store g = slotGet st g ∧ g ∉ s2.writes.map Prod.fst := by
      intro g hg
      have K := step_root_cert_keep (step_root_keys w { store := st, writes := [] }).1
          (step_root_keys w { store := st, writes := [] }).2.2.2
          (step_root_keys w { store := st, writes := [] }).2.2.1 g _ q2 (by
        intro he
        have hmem : g ∈ slotFiles Slot.root_cert := by simp [he, slotFiles]
        have hslot : slotOf f = Slot.root_cert :=
          slotFiles_disjoint g (slotOf f) Slot.root_cert hg hmem
        have ho : FileName.root_cert ∈ slotFiles (slotOf f) := by rw [hslot]; decide
        show (slotGet ((step_root_keys w { store := st, writes := [] }).2.2.1).store
            FileName.root_cert).isSome = true
        rw [(P1 _ ho).1]
        exact hpres _ ho)
      exact ⟨K.1.trans (P1 g hg).1, fun hm => (P1 g hg).2 (K.2.mp hm)⟩
    have P3 : ∀ g ∈ slotFiles (slotOf f),
        slotGet ((step_signing_keys w2 s2).2.2.1).store g = slotGet st g ∧
        g ∉ ((step_signing_keys w2 s2).2.2.1).writes.map Prod.fst := by
      intro g hg
      have K := step_signing_keys_keep w2 s2 g _ _ _ _ rfl (by
        intro hor
        have hmem : g ∈ slotFiles Slot.signing_keys := by
          rcases hor with hh | hh <;> simp [hh, slotFiles]
        have hslot : slotOf f = Slot.signing_keys :=
          slotFiles_disjoint g (slotOf f) Slot.signing_keys hg hmem
        have ho1 : FileName.signing_ca_priv_key ∈ slotFiles (slotOf f) := by rw [hslot]; decide
        have ho2 : FileName.signing_ca_pub_key ∈ slotFiles (slotOf f) := by rw [hslot]; decide
        constructor
        · show (slotGet s2.store FileName.signing_ca_priv_key).isSome = true
          rw [(P2 _ ho1).1]
          exact hpres _ ho1
        · show (slotGet s2.store FileName.signing_ca_pub_key).isSome = true
          rw [(P2 _ ho2).1]
          exact hpres _ ho2)
      exact ⟨K.1.trans (P2 g hg).1, fun hm => (P2 g hg).2 (K.2.mp hm)⟩
    rcases q4 : step_signing_cert rcrt (step_root_keys w { store := st, writes := [] }).1
        (step_signing_keys w2 s2).2.1 (step_signing_keys w2 s2).2.2.2
        (step_signing_keys w2 s2).2.2.1 with ⟨scrt, s4, w4⟩ | ⟨s4, er4⟩
    case _ =>
      dsimp only
      have P4 : ∀ g ∈ slotFiles (slotOf f),
          slotGet s4.store g = slotGet st g ∧ g ∉ s4.writes.map Prod.fst := by
        intro g hg
        have K := step_signing_cert_keep rcrt
            (step_root_keys w { store := st, writes := [] }).1
            (step_signing_keys w2 s2).2.1 (step_signing_keys w2 s2).2.2.2
            (step_signing_keys w2 s2).2.2.1 g _ q4 (by
          intro he
          have hmem : g ∈ slotFiles Slot.signing_cert := by simp [he, slotFiles]
          have hslot : slotOf f = Slot.signing_cert :=
            slotFiles_disjoint g (slotOf f) Slot.signing_cert hg hmem
          have ho : FileName.signing_cert ∈ slotFiles (slotOf f) := by rw [hslot]; decide
          show (slotGet ((step_signing_keys w2 s2).2.2.1).store
              FileName.signing_cert).isSome = true
          rw [(P3 _ ho).1]
          exact hpres _ ho)
        exact ⟨K.1.trans (P3 g hg).1, fun hm => (P3 g hg).2 (K.2.mp hm)⟩
      have P5 : ∀ g ∈ slotFiles (slotOf f),
          slotGet ((step_server_keys w4 s4).2.2.1).store g = slotGet st g ∧
          g ∉ ((step_server_keys w4 s4).2.2.1).writes.map Prod.fst := by
        intro g hg
        have K := step_server_keys_keep w4 s4 g _ _ _ _ rfl (by
          intro hor
          have hmem : g ∈ slotFiles Slot.server_keys := by
            rcases hor with hh | hh <;> simp [hh, slotFiles]
          have hslot : slotOf f = Slot.server_keys :=
            slotFiles_disjoint g (slotOf f) Slot.server_keys hg hmem
          have ho1 : FileName.server_priv_key ∈ slotFiles (slotOf f) := by rw [hslot]; decide
          have ho2 : FileName.server_pub_key ∈ slotFiles (slotOf f) := by rw [hslot]; decide
          constructor
          · show (slotGet s4.store FileName.server_priv_key).isSome = true
            rw [(P4 _ ho1).1]
            exact hpres _ ho1
          · show (slotGet s4.store FileName.server_pub_key).isSome = true
            rw [(P4 _ ho2).1]
            exact hpres _ ho2)
        exact ⟨K.1.trans (P4 g hg).1, fun hm => (P4 g hg).2 (K.2.mp hm)⟩
      rcases q6 : step_server_cert scrt (step_signing_keys w2 s2).1
          (step_server_keys w4 s4).2.1 (step_server_keys w4 s4).2.2.2
          (step_server_keys w4 s4).2.2.1 with ⟨vcrt, s6, w6⟩ | ⟨s6, er6⟩
      case _ =>
        dsimp only
        have P6 : ∀ g ∈ slotFiles (slotOf f),
            slotGet s6.store g = slotGet st g ∧ g ∉ s6.writes.map Prod.fst := by
          intro g hg
          have K := step_server_cert_keep scrt (step_signing_keys w2 s2).1
              (step_server_keys w4 s4).2.1 (step_server_keys w4 s4).2.2.2
              (step_server_keys w4 s4).2.2.1 g _ q6 (by
            intro he
            have hmem : g ∈ slotFiles Slot.server_cert := by simp [he, slotFiles]
            have hslot : slotOf f = Slot.server_cert :=
              slotFiles_disjoint g (slotOf f) Slot.server_cert hg hmem
            have ho : FileName.server_cert ∈ slotFiles (slotOf f) := by rw [hslot]; decide
            show (slotGet ((step_server_keys w4 s4).2.2.1).store
                FileName.server_cert).isSome = true
            rw [(P5 _ ho).1]
            exact hpres _ ho)
          exact ⟨K.1.trans (P5 g hg).1, fun hm => (P5 g hg).2 (K.2.mp hm)⟩
        have P7 : ∀ g ∈ slotFiles (slotOf f),
            slotGet ((step_client_keys w6 s6).2.2.1).store g = slotGet st g ∧
            g ∉ ((step_client_keys w6 s6).2.2.1).writes.map Prod.fst := by
          intro g hg
          have K := step_client_keys_keep w6 s6 g _ _ _ _ rfl (by
            intro hor
            have hmem : g ∈ slotFiles Slot.client_keys := by
              rcases hor with hh | hh <;> simp [hh, slotFiles]
            have hslot : slotOf f = Slot.client_keys :=
              slotFiles_disjoint g (slotOf f) Slot.client_keys hg hmem
            have ho1 : FileName.client_priv_key ∈ slotFiles (slotOf f) := by rw [hslot]; decide
            have ho2 : FileName.client_pub_key ∈ slotFiles (slotOf f) := by rw [hslot]; decide
            constructor
            · show (slotGet s6.store FileName.client_priv_key).isSome = true
              rw [(P6 _ ho1).1]
              exact hpres _ ho1
            · show (slotGet s6.store FileName.client_pub_key).isSome = true
              rw [(P6 _ ho2).1]
              exact hpres _ ho2)
          exact ⟨K.1.trans (P6 g hg).1, fun hm => (P6 g hg).2 (K.2.mp hm)⟩
        rcases q8 : step_client_cert (step_client_keys w6 s6).1
            (step_client_keys w6 s6).2.2.2 (step_client_keys w6 s6).2.2.1
          with ⟨ccrt, s8, w8⟩ | ⟨s8, er8⟩
        case _ =>
          dsimp only
          have P8 : ∀ g ∈ slotFiles (slotOf f),
              slotGet s8.store g = slotGet st g ∧ g ∉ s8.writes.map Prod.fst := by
            intro g hg
            have K := step_client_cert_keep (step_client_keys w6 s6).1
                (step_client_keys w6 s6).2.2.2 (step_client_keys w6 s6).2.2.1 g _ q8 (by
              intro he
              have hmem : g ∈ slotFiles Slot.client_cert := by simp [he, slotFiles]
              have hslot : slotOf f = Slot.client_cert :=
                slotFiles_disjoint g (slotOf f) Slot.client_cert hg hmem
              have ho : FileName.client_cert ∈ slotFiles (slotOf f) := by rw [hslot]; decide
              show (slotGet ((step_client_keys w6 s6).2.2.1).store
                  FileName.client_cert).isSome = true
              rw [(P7 _ ho).1]
              exact hpres _ ho)
            exact ⟨K.1.trans (P7 g hg).1, fun hm => (P7 g hg).2 (K.2.mp hm)⟩
          exact fun g hg => ⟨(P8 g hg).1, (P8 g hg).2⟩
        case _ =>
          dsimp only
          have P8 : ∀ g ∈ slotFiles (slotOf f),
              slotGet s8.store g = slotGet st g ∧ g ∉ s8.writes.map Prod.fst := by
            intro g hg
            have K := step_client_cert_keep (step_client_keys w6 s6).1
                (step_client_keys w6 s6).2.2.2 (step_client_keys w6 s6).2.2.1 g _ q8 (by
              intro he
              have hmem : g ∈ slotFiles Slot.client_cert := by simp [he, slotFiles]
              have hslot : slotOf f = Slot.client_cert :=
                slotFiles_disjoint g (slotOf f) Slot.client_cert hg hmem
              have ho : FileName.client_cert ∈ slotFiles (slotOf f) := by rw [hslot]; decide
              show (slotGet ((step_client_keys w6 s6).2.2.1).store
                  FileName.client_cert).isSome = true
              rw [(P7 _ ho).1]
              exact hpres _ ho)
            exact ⟨K.1.trans (P7 g hg).1, fun hm => (P7 g hg).2 (K.2.mp hm)⟩
          exact fun g hg => ⟨(P8 g hg).1, (P8 g hg).2⟩
      case _ =>
        dsimp only
        have P6 : ∀ g ∈ slotFiles (slotOf f),
            slotGet s6.store g = slotGet st g ∧ g ∉ s6.writes.map Prod.fst := by
          intro g hg
          have K := step_server_cert_keep scrt (step_signing_keys w2 s2).1
              (step_server_keys w4 s4).2.1 (step_server_keys w4 s4).2.2.2
              (step_server_keys w4 s4).2.2.1 g _ q6 (by
            intro he
            have hmem : g ∈ slotFiles Slot.server_cert := by simp [he, slotFiles]
            have hslot : slotOf f = Slot.server_cert :=
              slotFiles_disjoint g (slotOf f) Slot.server_cert hg hmem
            have ho : FileName.server_cert ∈ slotFiles (slotOf f) := by rw [hslot]; decide
            show (slotGet ((step_server_keys w4 s4).2.2.1).store
                FileName.server_cert).isSome = true
            rw [(P5 _ ho).1]
            exact hpres _ ho)
          exact ⟨K.1.trans (P5 g hg).1, fun hm => (P5 g hg).2 (K.2.mp hm)⟩
        exact fun g hg => ⟨(P6 g hg).1, (P6 g hg).2⟩
    case _ =>
      dsimp only
      have P4 : ∀ g ∈ slotFiles (slotOf f),
          slotGet s4.store g = slotGet st g ∧ g ∉ s4.writes.map Prod.fst := by
        intro g hg
        have K := step_signing_cert_keep rcrt
            (step_root_keys w { store := st, writes := [] }).1
            (step_signing_keys w2 s2).2.1 (step_signing_keys w2 s2).2.2.2
            (step_signing_keys w2 s2).2.2.1 g _ q4 (by
          intro he
          have hmem : g ∈ slotFiles Slot.signing_cert := by simp [he, slotFiles]
          have hslot : slotOf f = Slot.signing_cert :=
            slotFiles_disjoint g (slotOf f) Slot.signing_cert hg hmem
          have ho : FileName.signing_cert ∈ slotFiles (slotOf f) := by rw [hslot]; decide
          show (slotGet ((step_signing_keys w2 s2).2.2.1).store
              FileName.signing_cert).isSome = true
          rw [(P3 _ ho).1]
          exact hpres _ ho)
        exact ⟨K.1.trans (P3 g hg).1, fun hm => (P3 g hg).2 (K.2.mp hm)⟩
      exact fun g hg => ⟨(P4 g hg).1, (P4 g hg).2⟩
  case _ =>
    dsimp only
    have P2 : ∀ g ∈ slotFiles (slotOf f),
        slotGet s2.store g = slotGet st g ∧ g ∉ s2.writes.map Prod.fst := by
      intro g hg
      have K := step_root_cert_keep (step_root_keys w { store := st, writes := [] }).1
          (step_root_keys w { store := st, writes := [] }).2.2.2
          (step_root_keys w { store := st, writes := [] }).2.2.1 g _ q2 (by
        intro he
        have hmem : g ∈ slotFiles Slot.root_cert := by simp [he, slotFiles]
        have hslot : slotOf f = Slot.root_cert :=
          slotFiles_disjoint g (slotOf f) Slot.root_cert hg hmem
        have ho : FileName.root_cert ∈ slotFiles (slotOf f) := by rw [hslot]; decide
        show (slotGet ((step_root_keys w { store := st, writes := [] }).2.2.1).store
            FileName.root_cert).isSome = true
        rw [(P1 _ ho).1]
        exact hpres _ ho)
      exact ⟨K.1.trans (P1 g hg).1, fun hm => (P1 g hg).2 (K.2.mp hm)⟩
    exact fun g hg => ⟨(P2 g hg).1, (P2 g hg).2⟩

/-- C10: a slot counts as present exactly when its files can be read,
whatever bytes they hold: any present slot, including one holding
empty or unparseable bytes, is reused as-is by the run, its bytes are
unchanged afterwards, and the create path for it is never taken (its
files are never written). -/
theorem present_slot_reused_as_is (st : Store) (w : World) (slot : Slot) (f : FileName)
    (hpres : slotPresent st slot) (hf : f ∈ slotFiles slot) :
    slotGet (x509gen.main st w).store f = slotGet st f ∧
    f ∉ (x509gen.main st w).writes.map Prod.fst := by
  have hslot : slotOf f = slot :=
    slotFiles_disjoint f (slotOf f) slot (mem_slotFiles_slotOf f) hf
  exact main_keeps_present_files st w f (by rw [hslot]; exact hpres)

/-- Witness for C10: the corrupt signing certificate bytes in a
concrete store are reused untouched and never rewritten. -/
theorem present_slot_reused_as_is_witness :
    slotGet (x509gen.main corruptSigningStore exampleWorld).store FileName.signing_cert
      = slotGet corruptSigningStore FileName.signing_cert ∧
    FileName.signing_cert ∉
      (x509gen.main corruptSigningStore exampleWorld).writes.map Prod.fst :=
  present_slot_reused_as_is corruptSigningStore exampleWorld Slot.signing_cert
    FileName.signing_cert (by intro g hg; fin_cases hg <;> decide) (by decide)
